import Mathlib

/-!
Verification development of `script.js` (jp-regions)

A shallow embedding of the page script that renders the interactive map of
Japanese prefectures, and the properties of it that were checked.

Source lines are cited as `script.js:N`.
-/

namespace JpRegions

/-! ## JavaScript values -/

/-- The JavaScript values that a read of `regionMap[key]` can produce: `undefined`,
a string (an own property of the literal), or one of the built-in functions or
objects that every object literal inherits from `Object.prototype`. -/
inductive JSValue where
  | undefined : JSValue
  | string (s : String) : JSValue
  | builtin (name : String) : JSValue
  deriving DecidableEq

/-- JavaScript truthiness (`ToBoolean`): `undefined` and the empty string are
falsy, functions and objects are truthy. -/
def JSValue.truthy : JSValue → Bool
  | .undefined => false
  | .string s => s != ""
  | .builtin _ => true

/-- The JavaScript operator `a || b`. -/
def JSValue.or (a b : JSValue) : JSValue :=
  if a.truthy then a else b

/-! ## The region catalog (`script.js:2-11`) -/

/-- The own properties of the object literal `regionMap`, `script.js:2-11`. -/
def regionMap : List (String × String) :=
  [ ("hokkaido", "北海道地方"),
    ("tohoku", "东北地方"),
    ("kanto", "关东地方"),
    ("chubu", "中部地方"),
    ("kinki", "近畿地方"),
    ("chugoku", "中国地方"),
    ("shikoku", "四国地方"),
    ("kyushu-okinawa", "九州-冲绳地方") ]

/-- The eight region identifiers, the own keys of `regionMap`. -/
def regionKeys : List String := regionMap.map Prod.fst

/-- The property names every object literal inherits from `Object.prototype`
(ECMAScript, "Properties of the Object Prototype Object"): each is a function,
except `__proto__`, an accessor that yields the prototype object. -/
def objectPrototypeKeys : List String :=
  [ "constructor", "hasOwnProperty", "isPrototypeOf", "propertyIsEnumerable",
    "toLocaleString", "toString", "valueOf", "__proto__",
    "__defineGetter__", "__defineSetter__", "__lookupGetter__", "__lookupSetter__" ]

/-- The property read `regionMap[key]`: an own property when the literal has
one, else what the prototype chain gives, else `undefined`. -/
def regionMapGet (key : String) : JSValue :=
  match regionMap.lookup key with
  | some label => .string label
  | none => if key ∈ objectPrototypeKeys then .builtin key else .undefined

/-! ## Region class of a prefecture (`script.js:66-73`) -/

/-- The body of the `forEach` callback at `script.js:69-73`: one class name
updates the running `regionClass`. -/
def regionClassStep (regionClass cls : String) : String :=
  if (regionMapGet cls).truthy then cls else regionClass

/-- The scan of `script.js:68-73`: `regionClass` starts as the empty string and
the callback runs on every class in list order. -/
def regionClassOf (classList : List String) : String :=
  classList.foldl regionClassStep ""

/-! ## The info box (`script.js:97-150`) -/

/-- The presentational state of the info box: the values assigned to the three
text fields, the `show` class, and the `left` / `top` pixel offsets. -/
structure InfoBox where
  prefName : String
  regionName : JSValue
  prefCode : String
  shown : Bool
  left : Int
  top : Int
  deriving DecidableEq

/-- The fallback label of `script.js:101`. -/
def unknownLabel : String := "未知"

/-- The function `showInfoBox`, `script.js:97-104`. -/
def showInfoBox (prefName regionClass prefCode : String) (box : InfoBox) : InfoBox :=
  { box with
    prefName := prefName
    regionName := (regionMapGet regionClass).or (.string unknownLabel)
    prefCode := prefCode
    shown := true }

/-- The function `hideInfoBox`, `script.js:109-111`. -/
def hideInfoBox (box : InfoBox) : InfoBox :=
  { box with shown := false }

/-- The horizontal offset of `script.js:119`. -/
def offsetX : Int := 20

/-- The vertical offset of `script.js:120`. -/
def offsetY : Int := 20

/-- The `left` computed by `positionInfoBox`, `script.js:131-145`. -/
def positionLeft (pageX boxWidth viewportWidth : Int) : Int :=
  let left := pageX + offsetX
  let left := if left + boxWidth > viewportWidth then pageX - boxWidth - offsetX else left
  max 10 left

/-- The `top` computed by `positionInfoBox`, `script.js:132-146`. -/
def positionTop (pageY boxHeight viewportHeight : Int) : Int :=
  let top := pageY + offsetY
  let top := if top + boxHeight > viewportHeight then pageY - boxHeight - offsetY else top
  max 10 top

/-- The function `positionInfoBox`, `script.js:117-150`, on the pointer's page
coordinates, the measured box size and the viewport size. -/
def positionInfoBox (pageX pageY boxWidth boxHeight viewportWidth viewportHeight : Int)
    (box : InfoBox) : InfoBox :=
  { box with
    left := positionLeft pageX boxWidth viewportWidth
    top := positionTop pageY boxHeight viewportHeight }

/-! ## Asset selection and size class (`script.js:19-20`, `script.js:157-164`) -/

/-- The asset selected by `initMap` for a viewport width, `script.js:19-20`. -/
def svgFile (innerWidth : Int) : String :=
  let isMobile := decide (innerWidth ≤ 768)
  if isMobile then "./map-mobile.svg" else "./map-full.svg"

/-- The size class computed by `handleResize`, `script.js:157` and
`script.js:163-164`. -/
def mapType (innerWidth : Int) : String :=
  let isMobile := decide (innerWidth ≤ 768)
  if isMobile then "mobile" else "full"

/-! ## Display name of a prefecture (`script.js:62-63`) -/

/-- The code points that `String.prototype.trim` strips: the ECMAScript
`WhiteSpace` and `LineTerminator` productions. -/
def isTrimSpace (c : Char) : Bool :=
  c.toNat ∈ [0x9, 0xA, 0xB, 0xC, 0xD, 0x20, 0xA0, 0x1680, 0x2028, 0x2029, 0x202F, 0x205F,
    0x3000, 0xFEFF] || (0x2000 ≤ c.toNat && c.toNat ≤ 0x200A)

/-- The method `String.prototype.split("/")` on the characters of a string: the
segments between consecutive separators, in order. -/
def splitSlash : List Char → List (List Char)
  | [] => [[]]
  | c :: cs =>
    if c = '/' then [] :: splitSlash cs
    else
      match splitSlash cs with
      | [] => [[c]]
      | seg :: segs => (c :: seg) :: segs

/-- The method `String.prototype.trim` on the characters of a string. -/
def trim (cs : List Char) : List Char :=
  ((cs.dropWhile isTrimSpace).reverse.dropWhile isTrimSpace).reverse

/-- The expression `textContent.split("/")[0].trim()` of `script.js:63`; `none`
stands for the `TypeError` of calling `trim` on `undefined`, were element 0 absent. -/
def prefNameOf (textContent : String) : Option String :=
  (splitSlash textContent.data).head?.map fun seg => String.mk (trim seg)

/-! ## The map markup as a tree -/

/-- A node of the parsed markup: an element with its tag name, class list,
attributes and children, or a text node. -/
inductive Node where
  | element (tag : String) (classes : List String) (attrs : List (String × String))
      (children : List Node) : Node
  | text (data : String) : Node

/-- The children of a node; a text node has none. -/
def Node.children : Node → List Node
  | .element _ _ _ ch => ch
  | .text _ => []

/-- The selector `.cls` on one node: an element whose class list holds `cls`. -/
def Node.hasClass (cls : String) : Node → Bool
  | .element _ classes _ _ => decide (cls ∈ classes)
  | .text _ => false

/-- The selector `tag` on one node: an element of that tag name. -/
def Node.hasTag (tag : String) : Node → Bool
  | .element t _ _ _ => t == tag
  | .text _ => false

/-- The class list of a node (`Element.classList`). -/
def Node.classList : Node → List String
  | .element _ classes _ _ => classes
  | .text _ => []

/-- The method `getAttribute(name)`: `none` is JavaScript `null`. -/
def Node.getAttribute (name : String) : Node → Option String
  | .element _ _ attrs _ => attrs.lookup name
  | .text _ => none

/-- The node with its children replaced; a text node is left as it is. -/
def Node.setChildren (ch : List Node) : Node → Node
  | .element t c a _ => .element t c a ch
  | .text d => .text d

mutual
/-- The property `textContent`: the text of all text nodes below, in document order. -/
def Node.textContent : Node → String
  | .text d => d
  | .element _ _ _ ch => textContentList ch
/-- The `textContent` of a list of sibling nodes, concatenated. -/
def textContentList : List Node → String
  | [] => ""
  | n :: ns => n.textContent ++ textContentList ns
end

/-- A path into a forest, seen from the forest with one more tree in front. -/
def bumpHead : List Nat → List Nat
  | [] => []
  | k :: rest => (k + 1) :: rest

mutual
/-- The first proper descendant of a node that satisfies `p`, in document
order, as a path of child indices (`Element.querySelector`). -/
def findBelow (p : Node → Bool) : Node → Option (List Nat)
  | .text _ => none
  | .element _ _ _ ch => findPath p ch
/-- The first node of a forest that satisfies `p`, in document order (each node
before its descendants, these before its later siblings), as a path of child
indices. -/
def findPath (p : Node → Bool) : List Node → Option (List Nat)
  | [] => none
  | n :: ns =>
    if p n then some [0]
    else
      match findBelow p n with
      | some rest => some (0 :: rest)
      | none => (findPath p ns).map bumpHead
end

/-- The node a path of child indices leads to; the empty path leads nowhere. -/
def nodeAt : List Node → List Nat → Option Node
  | _, [] => none
  | forest, [i] => forest[i]?
  | forest, i :: j :: rest =>
    match forest[i]? with
    | some n => nodeAt n.children (j :: rest)
    | none => none

/-- The forest without the node (and its subtree) that a path leads to:
`Element.remove()` on that node. -/
def removeAt : List Node → List Nat → List Node
  | forest, [] => forest
  | forest, [i] => forest.eraseIdx i
  | forest, i :: j :: rest =>
    forest.modify (fun n => n.setChildren (removeAt n.children (j :: rest))) i

/-- The method `closest(".cls")` on the node a path leads to: whether that node
or one of its ancestors has the class. -/
def closest (cls : String) : List Node → List Nat → Bool
  | _, [] => false
  | forest, i :: rest =>
    match forest[i]? with
    | some n => n.hasClass cls || closest cls n.children rest
    | none => false

mutual
/-- The elements below (or at) a node that match `.geolonia-svg-map .prefecture`,
in document order; `inMap` tells whether an ancestor has class `geolonia-svg-map`. -/
def prefecturesOf (inMap : Bool) : Node → List Node
  | .text _ => []
  | .element t c a ch =>
    (if inMap && decide ("prefecture" ∈ c) then [.element t c a ch] else []) ++
      prefecturesIn (inMap || decide ("geolonia-svg-map" ∈ c)) ch
/-- The elements of a forest that match `.geolonia-svg-map .prefecture`. -/
def prefecturesIn (inMap : Bool) : List Node → List Node
  | [] => []
  | n :: ns => prefecturesOf inMap n ++ prefecturesIn inMap ns
end

mutual
/-- The proper descendants of a node in document order. -/
def descendantsOf : Node → List Node
  | .text _ => []
  | .element _ _ _ ch => descendantsIn ch
/-- The nodes of a forest in document order. -/
def descendantsIn : List Node → List Node
  | [] => []
  | n :: ns => n :: (descendantsOf n ++ descendantsIn ns)
end

/-! ## Binding a prefecture (`script.js:61-89`) -/

/-- An error thrown by the script or a rejected promise. -/
inductive JSError where
  | typeError (what : String) : JSError
  | rejected (what : String) : JSError
  deriving DecidableEq

/-- The values captured by the three listeners of one prefecture
(`script.js:63-64`, `script.js:68`); `prefCode` is `none` for `null`. -/
structure Binding where
  prefName : String
  regionClass : String
  prefCode : Option String
  deriving DecidableEq

/-- The function `setupPrefectureInteraction`, `script.js:61-89`: the values its
listeners capture, or the `TypeError` of reading `textContent` of `null` when the
prefecture has no title below it. -/
def setupPrefectureInteraction (prefecture : Node) : Except JSError Binding :=
  match findBelow (Node.hasTag "title") prefecture with
  | none => .error (.typeError "titleElement is null")
  | some path =>
    match nodeAt prefecture.children path with
    | none => .error (.typeError "titleElement is null")
    | some titleElement =>
      match prefNameOf titleElement.textContent with
      | none => .error (.typeError "split(...)[0] is undefined")
      | some prefName =>
        .ok { prefName := prefName
              regionClass := regionClassOf prefecture.classList
              prefCode := prefecture.getAttribute "data-code" }

/-- The `mouseenter` listener of a bound prefecture, `script.js:76-78`; a `null`
code assigned to `textContent` shows as the empty string. -/
def onMouseEnter (b : Binding) (box : InfoBox) : InfoBox :=
  showInfoBox b.prefName b.regionClass (b.prefCode.getD "") box

/-! ## Loading the map (`script.js:16-55`) -/

/-- Modelled from the spec: the host page, which is not part of the sources. It
provides the container `#map` (`map` is its content, `none` when the page has no
such element) and the info box; no other element of the page carries the classes
`geolonia-svg-map` or `prefecture`. `listeners` are the bindings attached to
prefectures now in the container. -/
structure Page where
  innerWidth : Int
  map : Option (List Node)
  listeners : List Binding
  infoBox : InfoBox

/-- The markup of the error message, `script.js:53`, as parsed. -/
def errorMessage : List Node :=
  [ .element "p" [] [("style", "color: red; text-align: center;")]
      [ .text "地图加载失败，请确保 svg 文件与 HTML 文件在同一目录下。" ] ]

/-- The title removal of `script.js:32-38` on the content of the container: the
root map element is the first element of class `geolonia-svg-map`, `svgTitle` the
first title below it, removed unless it or an ancestor has class `prefecture`.
Fails with the `TypeError` of `svg.querySelector` on `null` without a root. -/
def removeTopTitle (content : List Node) : Except JSError (List Node) :=
  match findPath (Node.hasClass "geolonia-svg-map") content with
  | none => .error (.typeError "svg is null")
  | some svgPath =>
    match nodeAt content svgPath with
    | none => .error (.typeError "svg is null")
    | some svg =>
      match findBelow (Node.hasTag "title") svg with
      | none => .ok content
      | some rel =>
        if !closest "prefecture" content (svgPath ++ rel) then
          .ok (removeAt content (svgPath ++ rel))
        else .ok content

/-- The loop of `script.js:45-47`: binds the prefectures in order; stops at the
first that throws, keeping the listeners attached so far. -/
def bindAll : List Node → List Binding → List Binding × Except JSError Unit
  | [], acc => (acc, .ok ())
  | p :: ps, acc =>
    match setupPrefectureInteraction p with
    | .ok b => bindAll ps (acc ++ [b])
    | .error e => (acc, .error e)

/-- The `try` block of `initMap`, `script.js:18-49`: the page as the block leaves
it and how the block ends. `fetch url` is the markup the asset at `url` parses
to, `none` when `fetch` or `response.text()` rejects. -/
def initMapTry (fetch : String → Option (List Node)) (page : Page) :
    Page × Except JSError Unit :=
  match fetch (svgFile page.innerWidth) with
  | none => (page, .error (.rejected "fetch"))
  | some svgText =>
    match page.map with
    | none => (page, .error (.typeError "the container is null"))
    | some _ =>
      let page := { page with map := some svgText, listeners := [] }
      match removeTopTitle svgText with
      | .error e => (page, .error e)
      | .ok content =>
        let page := { page with map := some content }
        let (listeners, result) := bindAll (prefecturesIn false content) []
        ({ page with listeners := listeners }, result)

/-- The function `initMap`, `script.js:16-55`: the page it leaves and whether it
completes (`ok`) or the error escapes to the caller as a rejected promise. The
`catch` block writes the error message into the container, which throws again
when the page has no container. -/
def initMap (fetch : String → Option (List Node)) (page : Page) :
    Page × Except JSError Unit :=
  match initMapTry fetch page with
  | (page, .ok ()) => (page, .ok ())
  | (page, .error _) =>
    match page.map with
    | none => (page, .error (.typeError "the container is null"))
    | some _ => ({ page with map := some errorMessage, listeners := [] }, .ok ())

/-! ## Debounced reload on resize (`script.js:155-176`) -/

/-- The state `handleResize` closes over, with the viewport width it reads:
`resizeTimer` is the expiry time (ms) of the pending timeout, `none` when no
timeout is pending; `reloads` counts the calls of `initMap` at `script.js:172`. -/
structure ResizeState where
  innerWidth : Int
  resizeTimer : Option Nat
  currentMapType : String
  reloads : Nat
  deriving DecidableEq

/-- The debounce delay of `script.js:174`. -/
def debounceDelay : Nat := 500

/-- The function `handleResize` up to registering the listener, `script.js:156-157`. -/
def handleResize (innerWidth : Int) : ResizeState :=
  { innerWidth := innerWidth
    resizeTimer := none
    currentMapType := mapType innerWidth
    reloads := 0 }

/-- The timeout callback, `script.js:162-174`. -/
def timerCallback (s : ResizeState) : ResizeState :=
  let newMapType := mapType s.innerWidth
  if newMapType ≠ s.currentMapType then
    { s with resizeTimer := none, currentMapType := newMapType, reloads := s.reloads + 1 }
  else
    { s with resizeTimer := none }

/-- The resize listener at time `now`, `script.js:159-175`: clears the pending
timeout and sets a new one. -/
def onResize (now : Nat) (s : ResizeState) : ResizeState :=
  { s with resizeTimer := some (now + debounceDelay) }

/-- The event loop up to time `now`: a pending timeout whose expiry has come runs. -/
def advance (now : Nat) (s : ResizeState) : ResizeState :=
  match s.resizeTimer with
  | some expiry => if expiry ≤ now then timerCallback s else s
  | none => s

/-- One resize event `(time, width)`: timeouts due by then have run, the viewport
takes the new width and the listener runs. -/
def resizeEvent (s : ResizeState) (e : Nat × Int) : ResizeState :=
  onResize e.1 { advance e.1 s with innerWidth := e.2 }

/-- A sequence of resize events in order of time. -/
def runResizes (s : ResizeState) (events : List (Nat × Int)) : ResizeState :=
  events.foldl resizeEvent s

/-- A burst: every event follows the one before by less than the debounce delay. -/
def isBurst : List (Nat × Int) → Bool
  | [] => true
  | [_] => true
  | a :: b :: rest => decide (a.1 ≤ b.1) && decide (b.1 < a.1 + debounceDelay) && isBurst (b :: rest)

/-! ## Sample documents -/

/-- A map document in the layout of the asset: the root, its title first, then
the prefectures, each with its own caption. -/
def sampleMap : List Node :=
  [ .element "svg" ["geolonia-svg-map"] []
      [ .element "title" [] [] [.text "Japanese Prefectures"],
        .element "g" ["svg-map"] []
          [ .element "g" ["hokkaido", "prefecture"] [("data-code", "1")]
              [ .element "title" [] [] [.text "北海道 / Hokkaido"], .element "path" [] [] [] ],
            .element "g" ["tokyo", "kanto", "prefecture"] [("data-code", "13")]
              [ .element "title" [] [] [.text "東京都 / Tokyo"] ] ] ] ]

/-- A map document whose root has its title after a prefecture. -/
def titleAfterPrefecture : List Node :=
  [ .element "svg" ["geolonia-svg-map"] []
      [ .element "g" ["hokkaido", "prefecture"] [("data-code", "1")]
          [ .element "title" [] [] [.text "北海道 / Hokkaido"] ],
        .element "title" [] [] [.text "Japanese Prefectures"] ] ]

/-- A map document whose only title outside a prefecture lies inside a group,
not directly below the root. -/
def titleInGroup : List Node :=
  [ .element "svg" ["geolonia-svg-map"] []
      [ .element "g" ["svg-map"] []
          [ .element "title" [] [] [.text "Japanese Prefectures"],
            .element "g" ["hokkaido", "prefecture"] [("data-code", "1")]
              [ .element "title" [] [] [.text "北海道 / Hokkaido"] ] ] ] ]

/-- An info box that shows nothing yet. -/
def hiddenInfoBox : InfoBox :=
  { prefName := "", regionName := .undefined, prefCode := "", shown := false, left := 0, top := 0 }

/-! ## Properties of the region catalog -/

theorem lookup_eq_none_of_not_mem (key : String) :
    ∀ l : List (String × String), key ∉ l.map Prod.fst → l.lookup key = none
  | [], _ => rfl
  | (k, v) :: l, h => by
    simp only [List.map_cons, List.mem_cons, not_or] at h
    have hk : (key == k) = false := by simpa using h.1
    simp only [List.lookup, hk]
    exact lookup_eq_none_of_not_mem key l h.2

theorem regionMapGet_truthy_iff (key : String) :
    (regionMapGet key).truthy = true ↔ key ∈ regionKeys ∨ key ∈ objectPrototypeKeys := by
  unfold regionMapGet
  by_cases h1 : key ∈ regionKeys
  · simp only [regionKeys, regionMap, List.map_cons, List.map_nil, List.mem_cons,
      List.mem_singleton, List.not_mem_nil, or_false] at h1
    rcases h1 with h | h | h | h | h | h | h | h <;> subst h <;> decide
  · rw [lookup_eq_none_of_not_mem key regionMap h1]
    by_cases h2 : key ∈ objectPrototypeKeys <;> simp [h1, h2, JSValue.truthy]

theorem regionMapGet_of_not_inherited (key : String) (h : key ∉ objectPrototypeKeys) :
    regionMapGet key = (regionMap.lookup key).elim .undefined .string := by
  unfold regionMapGet
  cases regionMap.lookup key <;> simp [h]

/-! ## Region class of a prefecture -/

theorem foldl_regionClassStep_append (l : List String) (init cls : String) :
    (l ++ [cls]).foldl regionClassStep init = regionClassStep (l.foldl regionClassStep init) cls := by
  simp [List.foldl_append]

/-- The scan yields the last class whose lookup in `regionMap` is truthy, and the
empty string when there is none. -/
theorem regionClassOf_eq_last_truthy (classList : List String) :
    regionClassOf classList =
      ((classList.filter fun c => (regionMapGet c).truthy).getLast?).getD "" := by
  unfold regionClassOf
  induction classList using List.reverseRecOn with
  | nil => rfl
  | append_singleton l c ih =>
    rw [foldl_regionClassStep_append, ih, List.filter_append]
    unfold regionClassStep
    by_cases hc : (regionMapGet c).truthy = true
    · simp [hc, List.filter_cons]
    · simp [hc, List.filter_cons]

/-- On class lists free of the property names of `Object.prototype`, the scan
yields the last class that is one of the eight region identifiers, and the empty
string when there is none. -/
theorem regionClassOf_eq_last_region (classList : List String)
    (h : ∀ c ∈ classList, c ∉ objectPrototypeKeys) :
    regionClassOf classList =
      ((classList.filter fun c => decide (c ∈ regionKeys)).getLast?).getD "" := by
  rw [regionClassOf_eq_last_truthy]
  congr 2
  apply List.filter_congr
  intro c hc
  have := regionMapGet_truthy_iff c
  by_cases hr : c ∈ regionKeys
  · simp [hr, this]
  · have hn := h c hc
    simp only [hr, hn, or_self, iff_false, Bool.not_eq_true] at this
    simp [hr, this]

/-- C1: on the class list `kanto prefecture toString` the region identifier is
`toString`, which is not one of the eight region identifiers, although `kanto`
is the last class that is one; and on `prefecture constructor`, which holds no
region identifier, it is `constructor` rather than empty, and the info box does
not display the fallback label. -/
theorem regionClassOf_inherited_name :
    regionClassOf ["kanto", "prefecture", "toString"] = "toString" ∧
      "toString" ∉ regionKeys ∧ "kanto" ∈ regionKeys ∧
      regionClassOf ["prefecture", "constructor"] = "constructor" ∧
      "prefecture" ∉ regionKeys ∧ "constructor" ∉ regionKeys ∧
      ∀ box : InfoBox,
        (showInfoBox "東京都" (regionClassOf ["prefecture", "constructor"]) "13" box).regionName
          ≠ .string unknownLabel := by
  refine ⟨by decide, by decide, by decide, by decide, by decide, by decide, ?_⟩
  intro box
  show (regionMapGet (regionClassOf ["prefecture", "constructor"])).or (.string unknownLabel)
    ≠ .string unknownLabel
  decide

/-! ## The info box -/

/-- Name, code and visibility after `showInfoBox`, for every region identifier. -/
theorem showInfoBox_fields (prefName regionClass prefCode : String) (box : InfoBox) :
    (showInfoBox prefName regionClass prefCode box).prefName = prefName ∧
      (showInfoBox prefName regionClass prefCode box).prefCode = prefCode ∧
      (showInfoBox prefName regionClass prefCode box).shown = true ∧
      (showInfoBox prefName regionClass prefCode box).left = box.left ∧
      (showInfoBox prefName regionClass prefCode box).top = box.top :=
  ⟨rfl, rfl, rfl, rfl, rfl⟩

/-- The region label after `showInfoBox` for a region identifier that is not a
property name of `Object.prototype`: the catalog's label for one of the eight
keys, the fallback label otherwise. -/
theorem showInfoBox_regionName_of_not_inherited (prefName regionClass prefCode : String)
    (box : InfoBox) (h : regionClass ∉ objectPrototypeKeys) :
    (showInfoBox prefName regionClass prefCode box).regionName =
      .string ((regionMap.lookup regionClass).getD unknownLabel) := by
  show (regionMapGet regionClass).or (.string unknownLabel) = _
  by_cases hr : regionClass ∈ regionKeys
  · simp only [regionKeys, regionMap, List.map_cons, List.map_nil, List.mem_cons,
      List.not_mem_nil, or_false] at hr
    rcases hr with h | h | h | h | h | h | h | h <;> subst h <;> decide
  · rw [regionMapGet_of_not_inherited _ h, lookup_eq_none_of_not_mem _ _ hr]
    rfl

/-- With the empty region identifier, what the scan yields when no class
matches, the info box shows the fallback label. -/
theorem showInfoBox_empty_region (prefName prefCode : String) (box : InfoBox) :
    (showInfoBox prefName "" prefCode box).regionName = .string unknownLabel := by
  show (regionMapGet "").or (.string unknownLabel) = _
  decide

/-- C7: after `showInfoBox` with the region identifier `toString`, which is not
one of the eight keys of the catalog, the region field holds the function
inherited from `Object.prototype`, not the fallback label; name, code and
visibility are as given. -/
theorem showInfoBox_inherited_name (box : InfoBox) :
    "toString" ∉ regionKeys ∧
      (showInfoBox "東京都" "toString" "13" box).regionName = .builtin "toString" ∧
      (showInfoBox "東京都" "toString" "13" box).regionName ≠ .string unknownLabel ∧
      (showInfoBox "東京都" "toString" "13" box).prefName = "東京都" ∧
      (showInfoBox "東京都" "toString" "13" box).prefCode = "13" ∧
      (showInfoBox "東京都" "toString" "13" box).shown = true :=
  ⟨by decide,
    show (regionMapGet "toString").or (.string unknownLabel) = .builtin "toString" by decide,
    show (regionMapGet "toString").or (.string unknownLabel) ≠ .string unknownLabel by decide,
    rfl, rfl, rfl⟩

/-! ## Asset selection -/

/-- C2: for every viewport width `w`, `initMap` selects the mobile asset exactly
when `w ≤ 768` and the full asset exactly when `w > 768` (768 is mobile, 769 is
full), and the size class of `handleResize` for `w` agrees with the selection. -/
theorem svgFile_mapType_agree (w : Int) :
    (svgFile w = "./map-mobile.svg" ↔ w ≤ 768) ∧
      (svgFile w = "./map-full.svg" ↔ 768 < w) ∧
      (mapType w = "mobile" ↔ svgFile w = "./map-mobile.svg") ∧
      (mapType w = "full" ↔ svgFile w = "./map-full.svg") ∧
      svgFile 768 = "./map-mobile.svg" ∧ svgFile 769 = "./map-full.svg" := by
  unfold svgFile mapType
  by_cases h : w ≤ 768
  · have h' : ¬ 768 < w := not_lt.mpr h
    simp [h, h']
  · have h' : 768 < w := not_le.mp h
    simp [h, h']

/-! ## Placement of the info box -/

/-- C4: `positionInfoBox` sets `left` to `max 10 (px + 20)` when
`px + 20 + bw ≤ vw` and to `max 10 (px - bw - 20)` otherwise, and `top` likewise
from `py`, `bh`, `vh`; pointer (100,100) with box 200×100 in viewport 1280×800
gives left 120 and top 120, pointer (1270,100) gives left 1050. -/
theorem positionInfoBox_spec (px py bw bh vw vh : Int) (box : InfoBox) :
    (positionInfoBox px py bw bh vw vh box).left =
        (if px + 20 + bw ≤ vw then max 10 (px + 20) else max 10 (px - bw - 20)) ∧
      (positionInfoBox px py bw bh vw vh box).top =
        (if py + 20 + bh ≤ vh then max 10 (py + 20) else max 10 (py - bh - 20)) ∧
      (positionInfoBox 100 100 200 100 1280 800 box).left = 120 ∧
      (positionInfoBox 100 100 200 100 1280 800 box).top = 120 ∧
      (positionInfoBox 1270 100 200 100 1280 800 box).left = 1050 := by
  refine ⟨?_, ?_, show positionLeft 100 200 1280 = 120 by decide,
    show positionTop 100 100 800 = 120 by decide,
    show positionLeft 1270 200 1280 = 1050 by decide⟩
  · show positionLeft px bw vw = _
    unfold positionLeft offsetX
    by_cases h : px + 20 + bw ≤ vw
    · simp [h, not_lt.mpr h]
    · simp [h, not_le.mp h]
  · show positionTop py bh vh = _
    unfold positionTop offsetY
    by_cases h : py + 20 + bh ≤ vh
    · simp [h, not_lt.mpr h]
    · simp [h, not_le.mp h]

/-- C5: for every pointer position, box size and viewport size, negative ones
included, the `left` and `top` computed by `positionInfoBox` are at least 10. -/
theorem positionInfoBox_ge_ten (px py bw bh vw vh : Int) (box : InfoBox) :
    10 ≤ (positionInfoBox px py bw bh vw vh box).left ∧
      10 ≤ (positionInfoBox px py bw bh vw vh box).top :=
  ⟨le_max_left _ _, le_max_left _ _⟩

/-- C6, as stated, fails: with the pointer at (100,100), a box 1275×100 and a
viewport 1280×800 the box is placed at left 10 and ends at 1285, past the right
edge; with a box 200×795 it is placed at top 10 and ends at 805, past the bottom. -/
theorem positionInfoBox_overflows :
    ¬ ∀ (px py bw bh vw vh : Int) (box : InfoBox),
        0 ≤ (positionInfoBox px py bw bh vw vh box).left ∧
        0 ≤ (positionInfoBox px py bw bh vw vh box).top ∧
        (positionInfoBox px py bw bh vw vh box).left + bw ≤ vw ∧
        (positionInfoBox px py bw bh vw vh box).top + bh ≤ vh := by
  intro h
  have := (h 100 100 1275 100 1280 800 hiddenInfoBox).2.2.1
  revert this
  decide

/-- C6, amended: `left ≥ 0` and `top ≥ 0` always; the box ends within the right
edge (`left + bw ≤ vw`) exactly when the box with the 10px margin fits the
viewport width (`bw + 10 ≤ vw`) and the pointer leaves room for the default
placement (`px + 20 + bw ≤ vw`) or is at most 20px past the right edge
(`px ≤ vw + 20`); and likewise for the bottom edge with `py`, `bh`, `vh`. -/
theorem positionInfoBox_within_viewport (px py bw bh vw vh : Int) (box : InfoBox) :
    0 ≤ (positionInfoBox px py bw bh vw vh box).left ∧
      0 ≤ (positionInfoBox px py bw bh vw vh box).top ∧
      ((positionInfoBox px py bw bh vw vh box).left + bw ≤ vw ↔
        bw + 10 ≤ vw ∧ (px + 20 + bw ≤ vw ∨ px ≤ vw + 20)) ∧
      ((positionInfoBox px py bw bh vw vh box).top + bh ≤ vh ↔
        bh + 10 ≤ vh ∧ (py + 20 + bh ≤ vh ∨ py ≤ vh + 20)) := by
  refine ⟨?_, ?_, ?_, ?_⟩
  · exact le_trans (by decide) (le_max_left 10 _)
  · exact le_trans (by decide) (le_max_left 10 _)
  · show positionLeft px bw vw + bw ≤ vw ↔ _
    unfold positionLeft offsetX
    simp only
    split_ifs with h
    · rcases max_cases 10 (px - bw - 20) with ⟨e, _⟩ | ⟨e, _⟩ <;> rw [e] <;> omega
    · rcases max_cases 10 (px + 20) with ⟨e, _⟩ | ⟨e, _⟩ <;> rw [e] <;> omega
  · show positionTop py bh vh + bh ≤ vh ↔ _
    unfold positionTop offsetY
    simp only
    split_ifs with h
    · rcases max_cases 10 (py - bh - 20) with ⟨e, _⟩ | ⟨e, _⟩ <;> rw [e] <;> omega
    · rcases max_cases 10 (py + 20) with ⟨e, _⟩ | ⟨e, _⟩ <;> rw [e] <;> omega

/-- For boxes and viewports as a browser reports them, with sizes that are not
negative, the condition reads: the box with the margin fits and the pointer is
at most 20px past the edge. -/
theorem positionLeft_within_iff (px bw vw : Int) (hbw : 0 ≤ bw) :
    positionLeft px bw vw + bw ≤ vw ↔ bw + 10 ≤ vw ∧ px ≤ vw + 20 := by
  unfold positionLeft offsetX
  simp only
  split_ifs with h
  · rcases max_cases 10 (px - bw - 20) with ⟨e, _⟩ | ⟨e, _⟩ <;> rw [e] <;> omega
  · rcases max_cases 10 (px + 20) with ⟨e, _⟩ | ⟨e, _⟩ <;> rw [e] <;> omega

/-! ## Display name of a prefecture -/

theorem head?_dropWhile_eq_false {α : Type} (p : α → Bool) (l : List α) (c : α)
    (h : (l.dropWhile p).head? = some c) : p c = false := by
  have := List.head?_dropWhile_not p l
  rw [h] at this
  exact this

/-- Element 0 of `split("/")` is the longest prefix without the separator. -/
theorem splitSlash_head (cs : List Char) :
    (splitSlash cs).head? = some (cs.takeWhile fun c => c != '/') := by
  induction cs with
  | nil => rfl
  | cons c cs ih =>
    unfold splitSlash
    by_cases hc : c = '/'
    · simp [hc]
    · simp only [hc, if_false]
      cases hs : splitSlash cs with
      | nil => rw [hs] at ih; simp at ih
      | cons seg segs =>
        rw [hs] at ih
        simp only [List.head?_cons, Option.some.injEq] at ih
        simp [ih, hc]

/-- The prefix before the first separator: it holds no separator, and the
string is that prefix alone or the prefix, a separator and a rest. -/
theorem takeWhile_slash_spec (cs : List Char) :
    '/' ∉ cs.takeWhile (fun c => c != '/') ∧
      (cs = cs.takeWhile (fun c => c != '/') ∨
        ∃ rest, cs = cs.takeWhile (fun c => c != '/') ++ '/' :: rest) := by
  constructor
  · intro h
    have := List.mem_takeWhile_imp h
    simp at this
  · have happ := List.takeWhile_append_dropWhile (fun c => c != '/') cs
    cases hd : cs.dropWhile (fun c => c != '/') with
    | nil => left; rw [hd, List.append_nil] at happ; exact happ.symm
    | cons d rest =>
      right
      have hdc : (fun c : Char => c != '/') d = false :=
        head?_dropWhile_eq_false _ cs d (by rw [hd]; rfl)
      have hd' : d = '/' := by simpa using hdc
      refine ⟨rest, ?_⟩
      rw [hd, hd'] at happ
      exact happ.symm

/-- What `trim` does: it cuts a run of white space off each end, and what is
left neither starts nor ends with white space. -/
theorem trim_spec (cs : List Char) :
    ∃ lead trail, cs = lead ++ trim cs ++ trail ∧
      (∀ c ∈ lead, isTrimSpace c = true) ∧ (∀ c ∈ trail, isTrimSpace c = true) ∧
      (∀ c, (trim cs).head? = some c → isTrimSpace c = false) ∧
      (∀ c, (trim cs).getLast? = some c → isTrimSpace c = false) := by
  have h1 := List.takeWhile_append_dropWhile isTrimSpace cs
  have h2 := List.takeWhile_append_dropWhile isTrimSpace (cs.dropWhile isTrimSpace).reverse
  have h3 : cs.dropWhile isTrimSpace =
      trim cs ++ ((cs.dropWhile isTrimSpace).reverse.takeWhile isTrimSpace).reverse := by
    have := congrArg List.reverse h2
    rw [List.reverse_append, List.reverse_reverse] at this
    exact this.symm
  have hlast : ∀ c, (trim cs).getLast? = some c → isTrimSpace c = false := by
    intro c hc
    unfold trim at hc
    rw [List.getLast?_reverse] at hc
    exact head?_dropWhile_eq_false _ _ c hc
  refine ⟨cs.takeWhile isTrimSpace,
    ((cs.dropWhile isTrimSpace).reverse.takeWhile isTrimSpace).reverse, ?_, ?_, ?_, ?_, hlast⟩
  · rw [List.append_assoc, ← h3, h1]
  · intro c hc
    exact List.mem_takeWhile_imp hc
  · intro c hc
    exact List.mem_takeWhile_imp (List.mem_reverse.mp hc)
  · intro c hc
    apply head?_dropWhile_eq_false isTrimSpace cs c
    rw [h3]
    cases ht : trim cs with
    | nil => rw [ht] at hc; simp at hc
    | cons a as => rw [ht] at hc; simpa using hc

/-- C3: for every caption `s` the extracted display name is defined and is the
trimmed substring before the first `/`: there is a prefix `pre` of `s` without
`/`, which is all of `s` or is followed in `s` by `/`, such that the name is
`pre` with a run of white space cut off each end; the name holds no `/` and
neither starts nor ends with white space. -/
theorem prefNameOf_spec (s : String) :
    ∃ name pre lead trail,
      prefNameOf s = some name ∧
      '/' ∉ pre ∧ (s.data = pre ∨ ∃ rest, s.data = pre ++ '/' :: rest) ∧
      pre = lead ++ name.data ++ trail ∧
      (∀ c ∈ lead, isTrimSpace c = true) ∧ (∀ c ∈ trail, isTrimSpace c = true) ∧
      '/' ∉ name.data ∧
      (∀ c, name.data.head? = some c → isTrimSpace c = false) ∧
      (∀ c, name.data.getLast? = some c → isTrimSpace c = false) := by
  obtain ⟨hno, hpre⟩ := takeWhile_slash_spec s.data
  obtain ⟨lead, trail, hsplit, hlead, htrail, hhead, hlast⟩ :=
    trim_spec (s.data.takeWhile fun c => c != '/')
  refine ⟨String.mk (trim (s.data.takeWhile fun c => c != '/')),
    s.data.takeWhile (fun c => c != '/'), lead, trail, ?_, hno, hpre, hsplit, hlead, htrail,
    ?_, hhead, hlast⟩
  · unfold prefNameOf
    rw [splitSlash_head]
    rfl
  · intro hmem
    apply hno
    rw [hsplit]
    simp only [List.mem_append]
    exact Or.inl (Or.inr hmem)

/-! ## Debounced reload on resize -/

/-- A timeout that is not yet due does not run. -/
theorem advance_of_not_due (now : Nat) (s : ResizeState)
    (h : ∀ expiry, s.resizeTimer = some expiry → now < expiry) : advance now s = s := by
  unfold advance
  cases ht : s.resizeTimer with
  | none => rfl
  | some expiry => simp [Nat.not_le.mpr (h expiry ht)]

/-- Within a burst no timeout runs: after the burst the timeout of the last
event is pending, the viewport has the last width, and the remembered size
class and the reload count are as before the burst. -/
theorem runResizes_burst (events : List (Nat × Int)) :
    ∀ (s : ResizeState) (e : Nat × Int), isBurst (e :: events) = true →
      (∀ expiry, s.resizeTimer = some expiry → e.1 < expiry) →
      (runResizes s (e :: events)).resizeTimer =
          some (((e :: events).getLast (List.cons_ne_nil _ _)).1 + debounceDelay) ∧
        (runResizes s (e :: events)).innerWidth =
          ((e :: events).getLast (List.cons_ne_nil _ _)).2 ∧
        (runResizes s (e :: events)).currentMapType = s.currentMapType ∧
        (runResizes s (e :: events)).reloads = s.reloads := by
  induction events with
  | nil =>
    intro s e _ hs
    simp only [runResizes, List.foldl_cons, List.foldl_nil, List.getLast_singleton]
    unfold resizeEvent
    rw [advance_of_not_due e.1 s hs]
    exact ⟨rfl, rfl, rfl, rfl⟩
  | cons e' events ih =>
    intro s e hb hs
    simp only [isBurst, Bool.and_eq_true, decide_eq_true_eq] at hb
    have hb' : isBurst (e' :: events) = true := hb.2
    have hstep : e.1 ≤ e'.1 ∧ e'.1 < e.1 + debounceDelay := hb.1
    have hnext : ∀ expiry, (resizeEvent s e).resizeTimer = some expiry → e'.1 < expiry := by
      intro expiry hx
      have : e.1 + debounceDelay = expiry := by
        simpa [resizeEvent, onResize] using hx
      omega
    have := ih (resizeEvent s e) e' hb' hnext
    have hstate : (resizeEvent s e).currentMapType = s.currentMapType ∧
        (resizeEvent s e).reloads = s.reloads := by
      unfold resizeEvent
      rw [advance_of_not_due e.1 s hs]
      exact ⟨rfl, rfl⟩
    have hrun : runResizes s (e :: e' :: events) = runResizes (resizeEvent s e) (e' :: events) :=
      rfl
    rw [hrun, List.getLast_cons (List.cons_ne_nil _ _)]
    rw [hstate.1, hstate.2] at this
    exact this

/-- C9: a burst of resize events, each less than 500ms after the one before,
that starts with no timeout due and is followed by 500ms of quiescence,
triggers at most one reload, exactly one if and only if the size class of the
viewport width at expiry (the width of the last event) differs from the
remembered one, and none when it is the same; afterwards the remembered size
class is that of the final width. -/
theorem resize_burst_reloads (s : ResizeState) (events : List (Nat × Int)) (e : Nat × Int)
    (now : Nat)
    (hs : ∀ expiry e0, s.resizeTimer = some expiry → (events ++ [e]).head? = some e0 →
      e0.1 < expiry)
    (hb : isBurst (events ++ [e]) = true) (hq : e.1 + debounceDelay ≤ now) :
    (runResizes s (events ++ [e])).innerWidth = e.2 ∧
      s.reloads ≤ (advance now (runResizes s (events ++ [e]))).reloads ∧
      (advance now (runResizes s (events ++ [e]))).reloads ≤ s.reloads + 1 ∧
      ((advance now (runResizes s (events ++ [e]))).reloads = s.reloads + 1 ↔
        mapType e.2 ≠ s.currentMapType) ∧
      ((advance now (runResizes s (events ++ [e]))).reloads = s.reloads ↔
        mapType e.2 = s.currentMapType) ∧
      (advance now (runResizes s (events ++ [e]))).currentMapType = mapType e.2 ∧
      (advance now (runResizes s (events ++ [e]))).resizeTimer = none := by
  obtain ⟨e0, rest, hcons⟩ : ∃ e0 rest, events ++ [e] = e0 :: rest := by
    cases events with
    | nil => exact ⟨e, [], rfl⟩
    | cons a l => exact ⟨a, l ++ [e], rfl⟩
  have hlast : (e0 :: rest).getLast (List.cons_ne_nil _ _) = e := by
    have : (events ++ [e]).getLast (by simp) = e := List.getLast_append_singleton _
    simpa [hcons] using this
  have hinv := runResizes_burst rest s e0 (hcons ▸ hb)
    (fun expiry hx => hs expiry e0 hx (by rw [hcons]; rfl))
  rw [hlast] at hinv
  rw [hcons]
  obtain ⟨ht, hw, hc, hr⟩ := hinv
  generalize runResizes s (e0 :: rest) = r at ht hw hc hr
  refine ⟨hw, ?_⟩
  unfold advance
  rw [ht]
  simp only [hq, if_true]
  unfold timerCallback
  simp only [hw, hc, hr]
  by_cases hm : mapType e.2 = s.currentMapType
  · simp [hm, hr]
  · simp [hm, hr]

/-- C9 at the scenario of the specification: from 1024px, resize events at 0,
100 and 200ms ending at 500px, then quiescence up to 700ms: one reload, and
the remembered size class becomes mobile. -/
theorem resize_burst_reloads_witness :
    (handleResize 1024).resizeTimer = none ∧
      isBurst ([(0, 900), (100, 700)] ++ [(200, 500)]) = true ∧
      200 + debounceDelay ≤ 700 ∧
      (advance 700 (runResizes (handleResize 1024) ([(0, 900), (100, 700)] ++ [(200, 500)]))).reloads
        = (handleResize 1024).reloads + 1 ∧
      (advance 700 (runResizes (handleResize 1024)
        ([(0, 900), (100, 700)] ++ [(200, 500)]))).currentMapType = "mobile" :=
  ⟨rfl, by decide, by decide,
    (resize_burst_reloads (handleResize 1024) [(0, 900), (100, 700)] (200, 500) 700
      (fun _ _ h => by cases h) (by decide) (by decide)).2.2.2.1.mpr (by decide),
    (resize_burst_reloads (handleResize 1024) [(0, 900), (100, 700)] (200, 500) 700
      (fun _ _ h => by cases h) (by decide) (by decide)).2.2.2.2.2.1⟩

/-! ## Failures of `initMap` -/

/-- The `try` block never touches the info box or the viewport. -/
theorem initMapTry_infoBox (fetch : String → Option (List Node)) (page : Page) :
    (initMapTry fetch page).1.infoBox = page.infoBox := by
  unfold initMapTry
  cases fetch (svgFile page.innerWidth) with
  | none => rfl
  | some svgText =>
    cases page.map with
    | none => rfl
    | some c =>
      simp only
      cases removeTopTitle svgText <;> rfl

/-- The `try` block leaves a page that has a container with a container. -/
theorem initMapTry_map_isSome (fetch : String → Option (List Node)) (page : Page)
    (h : page.map.isSome = true) : (initMapTry fetch page).1.map.isSome = true := by
  unfold initMapTry
  cases fetch (svgFile page.innerWidth) with
  | none => exact h
  | some svgText =>
    cases hm : page.map with
    | none => rw [hm] at h; cases h
    | some c =>
      simp only
      cases removeTopTitle svgText <;> rfl

/-- A rejected fetch is a failure of the `try` block. -/
theorem initMapTry_fetch_rejected (fetch : String → Option (List Node)) (page : Page)
    (h : fetch (svgFile page.innerWidth) = none) :
    (initMapTry fetch page).2 = .error (.rejected "fetch") := by
  unfold initMapTry
  rw [h]

/-- A response without an element of class `geolonia-svg-map` is a failure of
the `try` block, on a page that has the container. -/
theorem initMapTry_no_root (fetch : String → Option (List Node)) (page : Page)
    (svgText content : List Node) (hf : fetch (svgFile page.innerWidth) = some svgText)
    (hc : page.map = some content)
    (hr : findPath (Node.hasClass "geolonia-svg-map") svgText = none) :
    (initMapTry fetch page).2 = .error (.typeError "svg is null") := by
  unfold initMapTry
  rw [hf, hc]
  simp only [removeTopTitle, hr]

/-- A prefecture without a title below it is not bound: reading `textContent`
of `null` throws. -/
theorem setupPrefectureInteraction_no_title (prefecture : Node)
    (h : findBelow (Node.hasTag "title") prefecture = none) :
    setupPrefectureInteraction prefecture = .error (.typeError "titleElement is null") := by
  unfold setupPrefectureInteraction
  rw [h]

/-- The loop over the prefectures fails as soon as one of them cannot be bound. -/
theorem bindAll_error_of_mem :
    ∀ (ps : List Node) (acc : List Binding),
      (∃ p ∈ ps, ∃ e, setupPrefectureInteraction p = .error e) →
      ∃ e, (bindAll ps acc).2 = .error e
  | [], _, h => by
    obtain ⟨p, hp, _⟩ := h
    cases hp
  | q :: qs, acc, h => by
    unfold bindAll
    cases hq : setupPrefectureInteraction q with
    | error e => exact ⟨e, rfl⟩
    | ok b =>
      simp only
      apply bindAll_error_of_mem qs
      obtain ⟨p, hp, e, he⟩ := h
      rcases List.mem_cons.mp hp with rfl | hmem
      · rw [hq] at he; cases he
      · exact ⟨p, hmem, e, he⟩

/-- The function `initMap` never touches the info box, whether it completes or not. -/
theorem initMap_infoBox (fetch : String → Option (List Node)) (page : Page) :
    (initMap fetch page).1.infoBox = page.infoBox := by
  have h := initMapTry_infoBox fetch page
  unfold initMap
  rcases hr : initMapTry fetch page with ⟨page', _ | _⟩
  · rw [hr] at h
    simp only
    cases page'.map <;> exact h
  · rw [hr] at h
    exact h

/-- C8, as stated, fails for a page without the container: when the fetch
rejects, and also when it succeeds, the `catch` block throws in its turn, the
error reaches the caller, and no container holds the error message. -/
theorem initMap_missing_container_propagates :
    (initMapTry (fun _ => none) ⟨1024, none, [], hiddenInfoBox⟩).2
        = .error (.rejected "fetch") ∧
      (initMap (fun _ => none) ⟨1024, none, [], hiddenInfoBox⟩).2
        = .error (.typeError "the container is null") ∧
      (initMap (fun _ => none) ⟨1024, none, [], hiddenInfoBox⟩).1.map
        = none ∧
      (initMap (fun _ => some []) ⟨1024, none, [], hiddenInfoBox⟩).2
        = .error (.typeError "the container is null") :=
  ⟨rfl, rfl, rfl, rfl⟩

/-- C8, amended: on a page that has the container, every failure of the `try`
block of `initMap` (the fetch rejects, or the response lacks the expected map
structure: no root map element, a prefecture without its title) is handled locally: `initMap` completes without an
error, the container's content becomes the fixed error message, and the info
box is left unchanged. -/
theorem initMap_failure_handled (fetch : String → Option (List Node)) (page : Page)
    (content : List Node) (e : JSError) (hc : page.map = some content)
    (hfail : (initMapTry fetch page).2 = .error e) :
    (initMap fetch page).2 = .ok () ∧
      (initMap fetch page).1.map = some errorMessage ∧
      (initMap fetch page).1.infoBox = page.infoBox := by
  refine ⟨?_, ?_, initMap_infoBox fetch page⟩
  · have hsome := initMapTry_map_isSome fetch page (by rw [hc]; rfl)
    unfold initMap
    rcases hr : initMapTry fetch page with ⟨page', _ | _⟩
    · rw [hr] at hsome
      simp only at hsome ⊢
      cases hm : page'.map with
      | none => rw [hm] at hsome; cases hsome
      | some c => rfl
    · exact absurd hfail (by rw [hr]; simp)
  · have hsome := initMapTry_map_isSome fetch page (by rw [hc]; rfl)
    unfold initMap
    rcases hr : initMapTry fetch page with ⟨page', _ | _⟩
    · rw [hr] at hsome
      simp only at hsome ⊢
      cases hm : page'.map with
      | none => rw [hm] at hsome; cases hsome
      | some c => rfl
    · exact absurd hfail (by rw [hr]; simp)

/-- The amended C8 at the scenario of the specification: the fetch rejects on a
page with an empty container and a hidden info box. -/
theorem initMap_failure_handled_witness :
    (⟨1024, some [], [], hiddenInfoBox⟩ : Page).map = some [] ∧
      (initMapTry (fun _ => none) ⟨1024, some [], [], hiddenInfoBox⟩).2
        = .error (.rejected "fetch") ∧
      (initMap (fun _ => none) ⟨1024, some [], [], hiddenInfoBox⟩).2 = .ok () ∧
      (initMap (fun _ => none) ⟨1024, some [], [], hiddenInfoBox⟩).1.map = some errorMessage ∧
      (initMap (fun _ => none) ⟨1024, some [], [], hiddenInfoBox⟩).1.infoBox = hiddenInfoBox :=
  ⟨rfl, rfl, initMap_failure_handled (fun _ => none)
    ⟨1024, some [], [], hiddenInfoBox⟩ [] (.rejected "fetch") rfl rfl⟩

/-! ## Removal of the top-level title -/

theorem nodeAt_cons_bumpHead (n : Node) (ns : List Node) (path : List Nat) :
    nodeAt (n :: ns) (bumpHead path) = nodeAt ns path := by
  match path with
  | [] => rfl
  | [k] => simp [bumpHead, nodeAt]
  | k :: j :: rest => simp [bumpHead, nodeAt]

theorem nodeAt_zero_cons (n : Node) (ns : List Node) (j : Nat) (rest : List Nat) :
    nodeAt (n :: ns) (0 :: j :: rest) = nodeAt n.children (j :: rest) := by
  simp [nodeAt]

theorem nodeAt_nil_eq_none (path : List Nat) : nodeAt [] path = none := by
  match path with
  | [] => rfl
  | [k] => simp [nodeAt]
  | k :: j :: rest => simp [nodeAt]

mutual
/-- What `findBelow` finds is the first match among the descendants in document order. -/
theorem findBelow_spec (p : Node → Bool) : ∀ n : Node,
    match findBelow p n with
    | none => (descendantsOf n).find? p = none
    | some path => ∃ m, nodeAt n.children path = some m ∧ (descendantsOf n).find? p = some m
  | .text _ => by simp [findBelow, descendantsOf]
  | .element _ _ _ ch => by
    have := findPath_spec p ch
    simpa only [findBelow, descendantsOf, Node.children] using this
/-- What `findPath` finds is the first match of the forest in document order. -/
theorem findPath_spec (p : Node → Bool) : ∀ f : List Node,
    match findPath p f with
    | none => (descendantsIn f).find? p = none
    | some path => ∃ m, nodeAt f path = some m ∧ (descendantsIn f).find? p = some m
  | [] => by simp [findPath, descendantsIn]
  | n :: ns => by
    have h1 := findBelow_spec p n
    have h2 := findPath_spec p ns
    unfold findPath
    by_cases hp : p n = true
    · simp [hp, nodeAt, descendantsIn]
    · simp only [hp, if_false, Bool.false_eq_true]
      cases hb : findBelow p n with
      | some rest =>
        rw [hb] at h1
        obtain ⟨m, hm, hfind⟩ := h1
        simp only
        refine ⟨m, ?_, ?_⟩
        · cases rest with
          | nil => simp [nodeAt] at hm
          | cons j rest => rw [nodeAt_zero_cons]; exact hm
        · simp [descendantsIn, List.find?_cons, hp, List.find?_append, hfind]
      | none =>
        rw [hb] at h1
        simp only at h1 ⊢
        cases hf : findPath p ns with
        | none =>
          rw [hf] at h2
          simp only at h2
          simp [descendantsIn, List.find?_cons, hp, List.find?_append, h1, h2]
        | some path =>
          rw [hf] at h2
          obtain ⟨m, hm, hfind⟩ := h2
          simp only [Option.map_some']
          refine ⟨m, ?_, ?_⟩
          · rw [nodeAt_cons_bumpHead]; exact hm
          · simp [descendantsIn, List.find?_cons, hp, List.find?_append, h1, hfind]
end

theorem nodeAt_append (rel : List Nat) (hrel : rel ≠ []) :
    ∀ (path : List Nat) (f : List Node) (n : Node), nodeAt f path = some n →
      nodeAt f (path ++ rel) = nodeAt n.children rel
  | [], f, n, h => by simp [nodeAt] at h
  | [i], f, n, h => by
    cases rel with
    | nil => exact absurd rfl hrel
    | cons j r =>
      simp only [nodeAt] at h
      simp [nodeAt, h]
  | i :: j :: rest, f, n, h => by
    simp only [nodeAt] at h
    cases hi : f[i]? with
    | none => rw [hi] at h; cases h
    | some m =>
      rw [hi] at h
      have ih := nodeAt_append rel hrel (j :: rest) m.children n h
      simp only [List.cons_append, nodeAt, hi]
      simpa using ih

theorem prefecturesIn_eraseIdx_sublist (inMap : Bool) :
    ∀ (f : List Node) (i : Nat),
      (prefecturesIn inMap (f.eraseIdx i)).Sublist (prefecturesIn inMap f)
  | [], _ => by simp
  | n :: ns, 0 => by
    simp only [List.eraseIdx_cons_zero, prefecturesIn]
    exact List.sublist_append_right _ _
  | n :: ns, i + 1 => by
    simp only [List.eraseIdx_cons_succ, prefecturesIn]
    exact List.Sublist.append (List.Sublist.refl _) (prefecturesIn_eraseIdx_sublist inMap ns i)

theorem prefecturesIn_modify_sublist (inMap : Bool) (g : Node → Node) :
    ∀ (f : List Node) (i : Nat),
      (∀ n, f[i]? = some n → (prefecturesOf inMap (g n)).Sublist (prefecturesOf inMap n)) →
      (prefecturesIn inMap (f.modify g i)).Sublist (prefecturesIn inMap f)
  | [], _, _ => by simp
  | n :: ns, 0, h => by
    simp only [List.modify_zero_cons, prefecturesIn]
    exact List.Sublist.append (h n (by simp)) (List.Sublist.refl _)
  | n :: ns, i + 1, h => by
    simp only [List.modify_succ_cons, prefecturesIn]
    refine List.Sublist.append (List.Sublist.refl _)
      (prefecturesIn_modify_sublist inMap g ns i ?_)
    intro m hm
    exact h m (by simpa using hm)

/-- Removing a node that neither is nor lies inside an element of class
`prefecture` leaves every remaining prefecture as it was. -/
theorem prefecturesIn_removeAt_sublist :
    ∀ (path : List Nat) (f : List Node) (inMap : Bool),
      closest "prefecture" f path = false →
      (prefecturesIn inMap (removeAt f path)).Sublist (prefecturesIn inMap f)
  | [], f, _, _ => by simp [removeAt]
  | [i], f, inMap, _ => by
    simp only [removeAt]
    exact prefecturesIn_eraseIdx_sublist inMap f i
  | i :: j :: rest, f, inMap, h => by
    simp only [removeAt]
    apply prefecturesIn_modify_sublist
    intro n hn
    simp only [closest, hn, Bool.or_eq_false_iff] at h
    obtain ⟨hcls, hrest⟩ := h
    cases n with
    | text d => exact List.Sublist.refl _
    | element t c a ch =>
      have hc : "prefecture" ∉ c := by simpa [Node.hasClass] using hcls
      simp only [Node.setChildren, Node.children, prefecturesOf, hc, decide_False,
        Bool.and_false, Bool.false_eq_true, if_false, List.nil_append]
      exact prefecturesIn_removeAt_sublist (j :: rest) ch _ hrest

theorem descendantsIn_eraseIdx_length :
    ∀ (f : List Node) (i : Nat) (n : Node), f[i]? = some n →
      (descendantsIn (f.eraseIdx i)).length + (descendantsOf n).length + 1
        = (descendantsIn f).length
  | [], _, _, h => by simp at h
  | m :: ms, 0, n, h => by
    have hm : m = n := by simpa using h
    subst hm
    simp only [List.eraseIdx_cons_zero, descendantsIn, List.length_cons, List.length_append]
    omega
  | m :: ms, i + 1, n, h => by
    have ih := descendantsIn_eraseIdx_length ms i n (by simpa using h)
    simp only [List.eraseIdx_cons_succ, descendantsIn, List.length_cons, List.length_append]
    omega

theorem descendantsIn_modify_length (g : Node → Node) :
    ∀ (f : List Node) (i : Nat) (n : Node), f[i]? = some n →
      (descendantsIn (f.modify g i)).length + (descendantsOf n).length
        = (descendantsIn f).length + (descendantsOf (g n)).length
  | [], _, _, h => by simp at h
  | m :: ms, 0, n, h => by
    have hm : m = n := by simpa using h
    subst hm
    simp only [List.modify_zero_cons, descendantsIn, List.length_cons, List.length_append]
    omega
  | m :: ms, i + 1, n, h => by
    have ih := descendantsIn_modify_length g ms i n (by simpa using h)
    rw [List.modify_succ_cons]
    simp only [descendantsIn, List.length_cons, List.length_append]
    omega

/-- The function `removeAt` takes out exactly the node the path leads to and the
nodes below it. -/
theorem descendantsIn_removeAt_length :
    ∀ (path : List Nat) (f : List Node) (n : Node), nodeAt f path = some n →
      (descendantsIn (removeAt f path)).length + (descendantsOf n).length + 1
        = (descendantsIn f).length
  | [], _, _, h => by simp [nodeAt] at h
  | [i], f, n, h => by
    simp only [nodeAt] at h
    simp only [removeAt]
    exact descendantsIn_eraseIdx_length f i n h
  | i :: j :: rest, f, n, h => by
    simp only [nodeAt] at h
    cases hi : f[i]? with
    | none => rw [hi] at h; cases h
    | some m =>
      rw [hi] at h
      simp only at h
      have hmod := descendantsIn_modify_length
        (fun n => n.setChildren (removeAt n.children (j :: rest))) f i m hi
      have ih := descendantsIn_removeAt_length (j :: rest) m.children n h
      simp only [removeAt]
      cases m with
      | text d => simp [Node.children, nodeAt_nil_eq_none] at h
      | element t c a ch =>
        have hmod' : (descendantsIn (f.modify
              (fun n => n.setChildren (removeAt n.children (j :: rest))) i)).length
              + (descendantsIn ch).length
            = (descendantsIn f).length + (descendantsIn (removeAt ch (j :: rest))).length := hmod
        have ih' : (descendantsIn (removeAt ch (j :: rest))).length + (descendantsOf n).length + 1
            = (descendantsIn ch).length := ih
        omega

/-- What the title removal of `script.js:32-38` does on a document that has a
root map element (the first element of class `geolonia-svg-map`): it looks at
the first title in document order below the root, at the path `findBelow`
yields, and removes the node at that path when neither it nor an ancestor has
class `prefecture`; otherwise, and when there is no title below the root, the
document stays as it is. The step does not fail, and every prefecture present
afterwards is a prefecture of the loaded document, unchanged. -/
theorem removeTopTitle_first_title (content : List Node)
    (h : ∃ n ∈ descendantsIn content, n.hasClass "geolonia-svg-map" = true) :
    ∃ svgPath svg content',
      nodeAt content svgPath = some svg ∧
      (descendantsIn content).find? (Node.hasClass "geolonia-svg-map") = some svg ∧
      removeTopTitle content = .ok content' ∧
      (prefecturesIn false content').Sublist (prefecturesIn false content) ∧
      (match (descendantsOf svg).find? (Node.hasTag "title") with
       | none => content' = content
       | some title => ∃ rel, findBelow (Node.hasTag "title") svg = some rel ∧
           nodeAt content (svgPath ++ rel) = some title ∧
           content' = if closest "prefecture" content (svgPath ++ rel) = true then content
                      else removeAt content (svgPath ++ rel)) := by
  have hs := findPath_spec (Node.hasClass "geolonia-svg-map") content
  cases hfp : findPath (Node.hasClass "geolonia-svg-map") content with
  | none =>
    rw [hfp] at hs
    obtain ⟨n, hn, hcls⟩ := h
    have := List.find?_eq_none.mp hs n hn
    exact absurd hcls this
  | some svgPath =>
    rw [hfp] at hs
    obtain ⟨svg, hnode, hfirst⟩ := hs
    have ht := findBelow_spec (Node.hasTag "title") svg
    cases hfb : findBelow (Node.hasTag "title") svg with
    | none =>
      rw [hfb] at ht
      refine ⟨svgPath, svg, content, hnode, hfirst, ?_, List.Sublist.refl _, ?_⟩
      · simp only [removeTopTitle, hfp, hnode, hfb]
      · simp only at ht
        rw [ht]
    | some rel =>
      rw [hfb] at ht
      obtain ⟨title, htitle, hfind⟩ := ht
      have hrel : rel ≠ [] := by
        intro hnil
        rw [hnil] at htitle
        simp [nodeAt] at htitle
      have hat : nodeAt content (svgPath ++ rel) = some title := by
        rw [nodeAt_append rel hrel svgPath content svg hnode]
        exact htitle
      by_cases hcl : closest "prefecture" content (svgPath ++ rel) = true
      · refine ⟨svgPath, svg, content, hnode, hfirst, ?_, List.Sublist.refl _, ?_⟩
        · simp only [removeTopTitle, hfp, hnode, hfb, hcl, Bool.not_true, Bool.false_eq_true,
            if_false]
        · rw [hfind]
          exact ⟨rel, hfb, hat, by simp [hcl]⟩
      · refine ⟨svgPath, svg, removeAt content (svgPath ++ rel), hnode, hfirst, ?_, ?_, ?_⟩
        · simp only [removeTopTitle, hfp, hnode, hfb]
          simp [hcl]
        · exact prefecturesIn_removeAt_sublist _ _ _ (by simpa using hcl)
        · rw [hfind]
          exact ⟨rel, hfb, hat, by simp [hcl]⟩

/-- On `sampleMap` the title of the root is removed and both prefectures are
bound with the names, regions and codes of their own markup. -/
theorem initMap_sampleMap :
    removeTopTitle sampleMap = .ok
        [ .element "svg" ["geolonia-svg-map"] []
            [ .element "g" ["svg-map"] []
                [ .element "g" ["hokkaido", "prefecture"] [("data-code", "1")]
                    [ .element "title" [] [] [.text "北海道 / Hokkaido"],
                      .element "path" [] [] [] ],
                  .element "g" ["tokyo", "kanto", "prefecture"] [("data-code", "13")]
                    [ .element "title" [] [] [.text "東京都 / Tokyo"] ] ] ] ] ∧
      (initMap (fun _ => some sampleMap) ⟨1024, some [], [], hiddenInfoBox⟩).2 = .ok () ∧
      (initMap (fun _ => some sampleMap) ⟨1024, some [], [], hiddenInfoBox⟩).1.listeners =
        [ ⟨"北海道", "hokkaido", some "1"⟩, ⟨"東京都", "kanto", some "13"⟩ ] :=
  ⟨rfl, rfl, by decide⟩

/-- C10: on `titleAfterPrefecture` the root map element has a title as a direct
child, outside every prefecture, and `initMap` leaves it in place, because the
first title in document order is a prefecture's caption; on `titleInGroup` no
child of the root is a title, and the title inside the group is removed. On
`sampleMap`, where the root's title comes first, it is removed. -/
theorem removeTopTitle_misses_top_title :
    findPath (Node.hasClass "geolonia-svg-map") titleAfterPrefecture = some [0] ∧
      nodeAt titleAfterPrefecture [0, 1]
        = some (.element "title" [] [] [.text "Japanese Prefectures"]) ∧
      closest "prefecture" titleAfterPrefecture [0, 1] = false ∧
      removeTopTitle titleAfterPrefecture = .ok titleAfterPrefecture ∧
      (initMap (fun _ => some titleAfterPrefecture) ⟨1024, some [], [], hiddenInfoBox⟩).2
        = .ok () ∧
      (initMap (fun _ => some titleAfterPrefecture) ⟨1024, some [], [], hiddenInfoBox⟩).1.map
        = some titleAfterPrefecture ∧
      findPath (Node.hasClass "geolonia-svg-map") titleInGroup = some [0] ∧
      (nodeAt titleInGroup [0]).map (fun root => root.children.any (Node.hasTag "title"))
        = some false ∧
      removeTopTitle titleInGroup = .ok
        [ .element "svg" ["geolonia-svg-map"] []
            [ .element "g" ["svg-map"] []
                [ .element "g" ["hokkaido", "prefecture"] [("data-code", "1")]
                    [ .element "title" [] [] [.text "北海道 / Hokkaido"] ] ] ] ] ∧
      removeTopTitle sampleMap = .ok
        [ .element "svg" ["geolonia-svg-map"] []
            [ .element "g" ["svg-map"] []
                [ .element "g" ["hokkaido", "prefecture"] [("data-code", "1")]
                    [ .element "title" [] [] [.text "北海道 / Hokkaido"],
                      .element "path" [] [] [] ],
                  .element "g" ["tokyo", "kanto", "prefecture"] [("data-code", "13")]
                    [ .element "title" [] [] [.text "東京都 / Tokyo"] ] ] ] ] := by
  refine ⟨by decide, rfl, by decide, rfl, rfl, rfl, by decide, by decide, rfl, rfl⟩


end JpRegions
